import Mathlib

/-!
Verification of the GlobeTrotter backend's persistence layer.

This file gives a shallow embedding of the repository layer of the
GlobeTrotter travel-planning backend (`backend/repositories/*`,
`backend/api/endpoints/*`, `backend/services/blacklist_service.py`) and
proves the specification's claims about it.

Modelling conventions:
  * JSON values are the inductive `JVal`; Python dicts become association
    lists `List (String × JVal)` (first binding wins on lookup).
  * The MongoDB `conversations` collection is an association list from the
    conversation id to its document; the Redis cache is an association
    list from cache key to the cached serialized value together with the
    TTL it was stored with.  `json.dumps`/`json.loads` round-trip, so a
    well-formed cached string is modelled as `CacheVal.good s` carrying
    the state it deserializes to; `CacheVal.bad` models a cached string
    that is falsy or fails to parse.
  * Availability of Mongo / Redis is modelled by Boolean flags on the
    world; an operation on an unavailable backend raises.  Raising is
    modelled with `Except Unit`; a Python `try/except: pass` around a
    call becomes a conditional on the flag.
-/

set_option maxHeartbeats 1000000

namespace GlobeTrotter

/-- A JSON value: the payloads stored in Mongo documents and the Redis
cache (conversation states, messages, trip fields, budget items). -/
inductive JVal where
  | null
  | bool (b : Bool)
  | num (n : Int)
  | str (s : String)
  | arr (xs : List JVal)
  | obj (fs : List (String × JVal))

/-- Python truthiness of a JSON value (`if v:`): `None`, `False`, `0`,
`""`, `[]`, `{}` are falsy, everything else truthy. -/
def jvalFalsy : JVal → Bool
  | JVal.null => true
  | JVal.bool b => !b
  | JVal.num n => n == 0
  | JVal.str s => s.isEmpty
  | JVal.arr xs => xs.isEmpty
  | JVal.obj fs => fs.isEmpty

/-- Python `v == s` where `s` is a string: equal only when `v` is the
same string (comparison with a non-string value is `False`). -/
def jvalIsStr : JVal → String → Bool
  | JVal.str t, s => t == s
  | _, _ => false

/-! ### Association-list primitives (Python dicts / keyed collections) -/

/-- Lookup in an association list: the first binding of the key. -/
def alistGet {α : Type} : List (String × α) → String → Option α
  | [], _ => none
  | (k', v) :: t, k => if k' = k then some v else alistGet t k

/-- `d[k] = v`: replace the first binding of `k`, or add one. -/
def alistSet {α : Type} : List (String × α) → String → α → List (String × α)
  | [], k, v => [(k, v)]
  | (k', v') :: t, k, v =>
      if k' = k then (k, v) :: t else (k', v') :: alistSet t k v

/-- `d.pop(k, None)` / deletion of a key: remove every binding of `k`. -/
def alistEraseAll {α : Type} : List (String × α) → String → List (String × α)
  | [], _ => []
  | (k', v) :: t, k =>
      if k' = k then alistEraseAll t k else (k', v) :: alistEraseAll t k

/-- Apply a `$set` document: fold each supplied binding into the target. -/
def mergeSet {α : Type} : List (String × α) → List (String × α) → List (String × α)
  | d, [] => d
  | d, (k, v) :: t => mergeSet (alistSet d k v) t

theorem alistGet_set_self {α : Type} (l : List (String × α)) (k : String) (v : α) :
    alistGet (alistSet l k v) k = some v := by
  induction l with
  | nil => simp [alistSet, alistGet]
  | cons hd t ih =>
      obtain ⟨k', v'⟩ := hd
      by_cases h : k' = k
      · simp [alistSet, alistGet, h]
      · simp [alistSet, alistGet, h, ih]

theorem alistGet_set_ne {α : Type} (l : List (String × α)) (k k' : String) (v : α)
    (h : k' ≠ k) : alistGet (alistSet l k v) k' = alistGet l k' := by
  induction l with
  | nil => simp [alistSet, alistGet, Ne.symm h]
  | cons hd t ih =>
      obtain ⟨k₀, v₀⟩ := hd
      simp only [alistSet]
      by_cases h₀ : k₀ = k
      · rw [if_pos h₀]
        simp [alistGet, h₀, Ne.symm h]
      · rw [if_neg h₀]
        simp [alistGet, ih]

theorem alistGet_eraseAll_self {α : Type} (l : List (String × α)) (k : String) :
    alistGet (alistEraseAll l k) k = none := by
  induction l with
  | nil => simp [alistEraseAll, alistGet]
  | cons hd t ih =>
      obtain ⟨k₀, v₀⟩ := hd
      by_cases h : k₀ = k
      · simp [alistEraseAll, h, ih]
      · simp [alistEraseAll, alistGet, h, ih]

theorem alistGet_eraseAll_ne {α : Type} (l : List (String × α)) (k k' : String)
    (h : k' ≠ k) : alistGet (alistEraseAll l k) k' = alistGet l k' := by
  induction l with
  | nil => simp [alistEraseAll]
  | cons hd t ih =>
      obtain ⟨k₀, v₀⟩ := hd
      simp only [alistEraseAll]
      by_cases h₀ : k₀ = k
      · rw [if_pos h₀]
        simp [alistGet, h₀, Ne.symm h, ih]
      · rw [if_neg h₀]
        simp [alistGet, ih]

theorem notMem_keys_alistSet {α : Type} (l : List (String × α)) (k f : String) (v : α)
    (hfk : f ≠ k) (h : f ∉ l.map Prod.fst) : f ∉ (alistSet l k v).map Prod.fst := by
  induction l with
  | nil => simp [alistSet, hfk]
  | cons hd t ih =>
      obtain ⟨k₀, v₀⟩ := hd
      simp only [List.map_cons, List.mem_cons] at h
      push_neg at h
      simp only [alistSet]
      by_cases h₀ : k₀ = k
      · rw [if_pos h₀]
        simp [hfk, h.2]
      · rw [if_neg h₀]
        simp only [List.map_cons, List.mem_cons]
        push_neg
        exact ⟨h.1, ih h.2⟩

theorem notMem_keys_eraseAll {α : Type} (l : List (String × α)) (k f : String)
    (h : f ∉ l.map Prod.fst) : f ∉ (alistEraseAll l k).map Prod.fst := by
  induction l with
  | nil => simp [alistEraseAll]
  | cons hd t ih =>
      obtain ⟨k₀, v₀⟩ := hd
      simp only [List.map_cons, List.mem_cons] at h
      push_neg at h
      simp only [alistEraseAll]
      by_cases h₀ : k₀ = k
      · rw [if_pos h₀]
        exact ih h.2
      · rw [if_neg h₀]
        simp only [List.map_cons, List.mem_cons]
        push_neg
        exact ⟨h.1, ih h.2⟩

theorem alistGet_mergeSet_notMem {α : Type} (upds : List (String × α)) :
    ∀ (d : List (String × α)) (f : String), f ∉ upds.map Prod.fst →
      alistGet (mergeSet d upds) f = alistGet d f := by
  induction upds with
  | nil => intro d f _; rfl
  | cons hd t ih =>
      intro d f hf
      obtain ⟨k, v⟩ := hd
      simp only [List.map_cons, List.mem_cons] at hf
      push_neg at hf
      have h1 : f ∉ t.map Prod.fst := hf.2
      have h2 : f ≠ k := hf.1
      simp only [mergeSet]
      rw [ih _ f h1, alistGet_set_ne _ _ _ _ h2]

/-! ### Conversation repository
(`backend/repositories/conversation_repository.py`, the implementation the
`backend.repositories` package exports; the parallel legacy module
`backend/repositories.py` differs only in propagating Mongo errors on
`get`/`upsert` instead of swallowing them). -/

/-- A conversation state: the JSON object stored under the document's
`state` field and serialized into the cache. -/
abbrev StateMap := List (String × JVal)

/-- A value held in the Redis cache under a conversation's cache key:
`good s` is a string that `json.loads` parses back to `s` (everything
`json.dumps` produces round-trips); `bad` is a falsy or unparseable
string, which `get` treats exactly like a miss (the parse failure is
swallowed and the Mongo fallback runs). -/
inductive CacheVal where
  | good (s : StateMap)
  | bad

/-- A document of the `conversations` collection: `_id` is the key in
the store; `user_id` is set by `create_conversation` and absent (`none`)
on documents created by `upsert`/`append_message` upserts. -/
structure ConvDoc where
  state : StateMap
  userId : Option String

/-- The world a `ConversationRepository` operates on: the Mongo
`conversations` collection keyed by `_id`, the Redis cache keyed by
cache key (each entry carrying the TTL in seconds it was set with), and
availability flags for the two backends (`false` means every call to
that backend raises). -/
structure ConvWorld where
  store : List (String × ConvDoc)
  cache : List (String × (CacheVal × Nat))
  mongoUp : Bool
  redisUp : Bool

/-- `CONV_CACHE_TTL_SECONDS = int(timedelta(days=1).total_seconds())`. -/
def CONV_CACHE_TTL_SECONDS : Nat := 86400

namespace ConversationRepository

/-- `_cache_key`: the Redis key for a conversation id. -/
def cacheKey (conversationId : String) : String := "conv:" ++ conversationId

/-- Best-effort `redis.set(key, json.dumps(state), ex=TTL)` wrapped in
`try/except: pass`: when Redis is down the error is swallowed and the
world is unchanged. -/
def cacheSetIfUp (w : ConvWorld) (conversationId : String) (s : StateMap) : ConvWorld :=
  if w.redisUp then
    { w with cache := alistSet w.cache (cacheKey conversationId)
                        (CacheVal.good s, CONV_CACHE_TTL_SECONDS) }
  else w

/-- Best-effort `redis.delete(key)` wrapped in `try/except: pass`. -/
def cacheDelIfUp (w : ConvWorld) (conversationId : String) : ConvWorld :=
  if w.redisUp then
    { w with cache := alistEraseAll w.cache (cacheKey conversationId) }
  else w

/-- Mongo `update_one({_id: cid}, {"$set": {"state": state}}, upsert=True)`:
replace the `state` field of the existing document (other fields such as
`user_id` are untouched), or insert a fresh document. -/
def storeSetState (store : List (String × ConvDoc)) (conversationId : String)
    (s : StateMap) : List (String × ConvDoc) :=
  match alistGet store conversationId with
  | some d => alistSet store conversationId { d with state := s }
  | none => alistSet store conversationId { state := s, userId := none }

/-- `ConversationRepository.get`: Redis first (`redis.get` is not inside a
`try`, so an unavailable cache raises out of the method); a truthy cached
string that parses is returned directly; otherwise the Mongo fallback
runs inside `try/except: return None`, and on a found document refreshes
the cache with the TTL before returning the document's state. -/
def get (w : ConvWorld) (conversationId : String) :
    Except Unit (Option StateMap × ConvWorld) :=
  if w.redisUp then
    match alistGet w.cache (cacheKey conversationId) with
    | some (CacheVal.good s, _) => Except.ok (some s, w)
    | _ =>
      if w.mongoUp then
        match alistGet w.store conversationId with
        | none => Except.ok (none, w)
        | some d => Except.ok (some d.state, cacheSetIfUp w conversationId d.state)
      else
        Except.ok (none, w)
  else Except.error ()

/-- `ConversationRepository.upsert`: Mongo `$set` of the state inside
`try/except: pass` (store errors are ignored, cache-only mode), then a
best-effort cache write with the TTL.  Never raises. -/
def upsert (w : ConvWorld) (conversationId : String) (s : StateMap) : ConvWorld :=
  let w1 := if w.mongoUp then { w with store := storeSetState w.store conversationId s }
            else w
  cacheSetIfUp w1 conversationId s

/-- `ConversationRepository.delete`: Mongo `delete_one` inside a `try`;
on a store error the result is forced to `True` ("consider deleted in
cache-only mode"); then a best-effort cache delete.  Returns whether the
conversation counts as deleted, plus the new world. -/
def delete (w : ConvWorld) (conversationId : String) : Bool × ConvWorld :=
  let r :=
    if w.mongoUp then
      ((alistGet w.store conversationId).isSome,
        { w with store := alistEraseAll w.store conversationId })
    else (true, w)
  (r.1, cacheDelIfUp r.2 conversationId)

/-- Phase 1 of `append_message`: Mongo
`find_one_and_update({_id: cid, "state.messages": {"$type": "array"}},
{"$push": {"state.messages": message}}, upsert=False, AFTER)`.
Returns the post-update document and store when a document with an
array-valued `state.messages` exists, else `none`. -/
def tryPush (store : List (String × ConvDoc)) (conversationId : String) (m : JVal) :
    Option (ConvDoc × List (String × ConvDoc)) :=
  match alistGet store conversationId with
  | some d =>
    match alistGet d.state "messages" with
    | some (JVal.arr ms) =>
      let d' : ConvDoc := { d with state := alistSet d.state "messages" (JVal.arr (ms ++ [m])) }
      some (d', alistSet store conversationId d')
    | _ => none
  | none => none

/-- The Redis-only fallback's `state.get("messages") or []` followed by
`.append`: an absent or falsy value yields `[]`, an array yields itself,
and a truthy non-list value makes `.append` raise `AttributeError`,
which propagates out of `append_message`. -/
def msgsForAppend : Option JVal → Except Unit (List JVal)
  | some (JVal.arr ms) => Except.ok ms
  | none => Except.ok []
  | some v => if jvalFalsy v then Except.ok [] else Except.error ()

/-- `ConversationRepository.append_message`: try the atomic array push
(phase 1, store errors caught → `None`); if it did not apply, either
initialize the whole state to `{"messages": [message]}` in Mongo with an
upsert and re-read the document, or — when Mongo is down — rebuild the
state from the cache, append, and write it back to the cache only.  The
final cache refresh is best-effort.  Note the fallback's `redis.get` is
not inside a `try`, so with both backends down the method raises. -/
def append_message (w : ConvWorld) (conversationId : String) (m : JVal) :
    Except Unit (StateMap × ConvWorld) :=
  match (if w.mongoUp then tryPush w.store conversationId m else none) with
  | some (d', store') =>
      Except.ok (d'.state, cacheSetIfUp { w with store := store' } conversationId d'.state)
  | none =>
    if w.mongoUp then
      let s : StateMap := [("messages", JVal.arr [m])]
      let store' := storeSetState w.store conversationId s
      Except.ok (s, cacheSetIfUp { w with store := store' } conversationId s)
    else
      if w.redisUp then
        let s0 : StateMap :=
          match alistGet w.cache (cacheKey conversationId) with
          | some (CacheVal.good s, _) => s
          | _ => []
        match msgsForAppend (alistGet s0 "messages") with
        | Except.error e => Except.error e
        | Except.ok ms =>
          let s := alistSet s0 "messages" (JVal.arr (ms ++ [m]))
          Except.ok (s, cacheSetIfUp w conversationId s)
      else Except.error ()

end ConversationRepository

/-! ### Conversation HTTP endpoints (`backend/api/endpoints/conversations.py`) -/

namespace ConversationsEndpoint

/-- `DELETE /api/conversations/{id}`: call `repo.delete`; a `False`
result is mapped to HTTP 404, a `True` result to `{"success": true}`. -/
def delete_conversation (w : ConvWorld) (conversationId : String) :
    Except Nat Bool × ConvWorld :=
  let r := ConversationRepository.delete w conversationId
  if r.1 then (Except.ok true, r.2) else (Except.error 404, r.2)

end ConversationsEndpoint

/-! ### Trip repository (`backend/repositories/trip_repository.py`) -/

/-- A Mongo document (a trip), as an association list of fields. -/
abbrev Doc := List (String × JVal)

/-- The `trips` collection, keyed by the string form of the ObjectId. -/
abbrev TripStore := List (String × Doc)

/-- Hexadecimal digit, as accepted by `bson.ObjectId`. -/
def isHexChar (c : Char) : Bool :=
  c.isDigit || ('a' ≤ c && c ≤ 'f') || ('A' ≤ c && c ≤ 'F')

/-- ASCII lowercasing of one character (`str.lower` on the ASCII range,
which covers hex digits and the item names the claims quantify over). -/
def lowerChar (c : Char) : Char :=
  if 65 ≤ c.toNat && c.toNat ≤ 90 then Char.ofNat (c.toNat + 32) else c

/-- `s.lower()`. -/
def lowerStr (s : String) : String := String.mk (s.data.map lowerChar)

/-- `s.strip()`: drop whitespace from both ends. -/
def stripStr (s : String) : String :=
  String.mk ((((s.data.dropWhile Char.isWhitespace).reverse).dropWhile
    Char.isWhitespace).reverse)

/-- `ObjectId(s)`: accepts exactly 24 hexadecimal characters and
normalizes to lowercase (`str(ObjectId(s)) == s.lower()`); any other
string raises `InvalidId` (modelled by `none`). -/
def parseObjectId (s : String) : Option String :=
  if s.length = 24 && s.data.all isHexChar then some (lowerStr s) else none

namespace TripRepository

/-- The body of `get_trip_by_id` before its bare `except`: `ObjectId`
construction raises on a malformed id; a found trip gets its `id` field
set to the string form of its `_id` before being returned. -/
def get_trip_by_id_attempt (store : TripStore) (tripId : String) :
    Except Unit (Option Doc) :=
  match parseObjectId tripId with
  | none => Except.error ()
  | some oid =>
    match alistGet store oid with
    | some trip => Except.ok (some (alistSet trip "id" (JVal.str oid)))
    | none => Except.ok none

/-- `TripRepository.get_trip_by_id`: the whole body is wrapped in
`try: ... except: return None`, so any raise (malformed ObjectId, store
error) surfaces as `None`. -/
def get_trip_by_id (store : TripStore) (tripId : String) : Option Doc :=
  match get_trip_by_id_attempt store tripId with
  | Except.ok r => r
  | Except.error _ => none

/-- The mutation `update_trip` applies to its `$set` document before the
store call: force `updated_at` to the current time, then drop
`created_at` and `_id` ("Don't update these fields"). -/
def sanitizeTripUpdate (updateData : Doc) (now : JVal) : Doc :=
  alistEraseAll (alistEraseAll (alistSet updateData "updated_at" now) "created_at") "_id"

/-- `TripRepository.update_trip`: `find_one_and_update({_id}, {"$set":
update_data}, AFTER)` with the sanitized update; `ObjectId` raises
uncaught on a malformed id; no match returns `None`; on success the
returned (post-update) document additionally carries `id`. -/
def update_trip (store : TripStore) (tripId : String) (updateData : Doc) (now : JVal) :
    Except Unit (Option Doc × TripStore) :=
  match parseObjectId tripId with
  | none => Except.error ()
  | some oid =>
    match alistGet store oid with
    | none => Except.ok (none, store)
    | some trip =>
      let trip' := mergeSet trip (sanitizeTripUpdate updateData now)
      Except.ok (some (alistSet trip' "id" (JVal.str oid)), alistSet store oid trip')

/-- `TripRepository.delete_trip`: `delete_one({_id: ObjectId(trip_id)})`,
`ObjectId` raising uncaught; returns `deleted_count > 0`. -/
def delete_trip (store : TripStore) (tripId : String) :
    Except Unit (Bool × TripStore) :=
  match parseObjectId tripId with
  | none => Except.error ()
  | some oid => Except.ok ((alistGet store oid).isSome, alistEraseAll store oid)

/-- Whether a budget array element matches the Mongo query clause
`"budget.id": item_id` (an embedded document whose `id` equals the
string `item_id`). -/
def budgetItemHasId (item : JVal) (itemId : String) : Bool :=
  match item with
  | JVal.obj fs =>
    match alistGet fs "id" with
    | some v => jvalIsStr v itemId
    | none => false
  | _ => false

/-- Replace the element at an index (the positional-`$` target). -/
def listModify {α : Type} (f : α → α) : Nat → List α → List α
  | _, [] => []
  | 0, x :: t => f x :: t
  | n + 1, x :: t => x :: listModify f n t

/-- The positional update `{"budget.$.k": v for k, v}` applied to the
matched budget element: merge the supplied fields into the embedded
document. -/
def mergeBudgetItem (updateData : Doc) (item : JVal) : JVal :=
  match item with
  | JVal.obj fs => JVal.obj (mergeSet fs updateData)
  | v => v

/-- `TripRepository.update_budget_item`: `update_one({_id, "budget.id":
item_id}, {"$set": {**{f"budget.$.{k}": v}, "updated_at": now}})` —
the first budget element with the matching `id` gets exactly the
supplied fields merged in, and the document-level `updated_at` is set;
`modified_count > 0` leads to re-reading the trip via
`get_trip_by_id`.  A malformed id raises uncaught. -/
def update_budget_item (store : TripStore) (tripId itemId : String)
    (updateData : Doc) (now : JVal) : Except Unit (Option Doc × TripStore) :=
  match parseObjectId tripId with
  | none => Except.error ()
  | some oid =>
    match alistGet store oid with
    | none => Except.ok (none, store)
    | some trip =>
      match alistGet trip "budget" with
      | some (JVal.arr items) =>
        match items.findIdx? (budgetItemHasId · itemId) with
        | some i =>
          let items' := listModify (mergeBudgetItem updateData) i items
          let trip' := alistSet (alistSet trip "budget" (JVal.arr items')) "updated_at" now
          let store' := alistSet store oid trip'
          Except.ok (get_trip_by_id store' tripId, store')
        | none => Except.ok (none, store)
      | _ => Except.ok (none, store)

end TripRepository

/-! ### Trip HTTP endpoints (`backend/api/endpoints/trips.py`).
`current_user` is the requester's identity (`current_user["id"]`);
`trip["user_id"]` on a document lacking the field raises `KeyError`,
which FastAPI surfaces as HTTP 500 — modelled as `Except.error 500`. -/

namespace TripsEndpoint

/-- Whether a trip carries a truthy public-visibility flag
(`trip.get("is_public", False)`). -/
def isPublicFlag (trip : Doc) : Bool :=
  match alistGet trip "is_public" with
  | some v => !(jvalFalsy v)
  | none => false

/-- `GET /api/trips/{trip_id}`: 404 when absent; 403 when the requester
is neither the owner nor the trip public; else the trip. -/
def get_trip (store : TripStore) (tripId userId : String) : Except Nat Doc :=
  match TripRepository.get_trip_by_id store tripId with
  | none => Except.error 404
  | some trip =>
    match alistGet trip "user_id" with
    | none => Except.error 500
    | some owner =>
      if !(jvalIsStr owner userId) && !(isPublicFlag trip) then Except.error 403
      else Except.ok trip

/-- `PUT /api/trips/{trip_id}`: 404 when absent, 403 when the requester
is not the owner (checked before any mutation), else the repository
update (its `None` mapped to 400). -/
def update_trip (store : TripStore) (tripId userId : String) (payload : Doc)
    (now : JVal) : Except Nat Doc × TripStore :=
  match TripRepository.get_trip_by_id store tripId with
  | none => (Except.error 404, store)
  | some trip =>
    match alistGet trip "user_id" with
    | none => (Except.error 500, store)
    | some owner =>
      if !(jvalIsStr owner userId) then (Except.error 403, store)
      else
        match TripRepository.update_trip store tripId payload now with
        | Except.error _ => (Except.error 500, store)
        | Except.ok (none, store') => (Except.error 400, store')
        | Except.ok (some d, store') => (Except.ok d, store')

/-- `DELETE /api/trips/{trip_id}`: 404 when absent, 403 when the
requester is not the owner (checked before any mutation), else the
repository delete (`False` mapped to 400, success to 204). -/
def delete_trip (store : TripStore) (tripId userId : String) :
    Except Nat Unit × TripStore :=
  match TripRepository.get_trip_by_id store tripId with
  | none => (Except.error 404, store)
  | some trip =>
    match alistGet trip "user_id" with
    | none => (Except.error 500, store)
    | some owner =>
      if !(jvalIsStr owner userId) then (Except.error 403, store)
      else
        match TripRepository.delete_trip store tripId with
        | Except.error _ => (Except.error 500, store)
        | Except.ok (true, store') => (Except.ok (), store')
        | Except.ok (false, store') => (Except.error 400, store')

end TripsEndpoint

/-! ### City repository and endpoint
(`backend/repositories/city_repository.py`,
`backend/api/endpoints/cities.py`). -/

/-- The `cities` collection, keyed by the string form of the ObjectId. -/
abbrev CityStore := List (String × Doc)

namespace CityRepository

/-- `CityRepository.delete_city`: `delete_one({"_id": ObjectId(city_id)})`
with no surrounding `try` — a malformed identifier makes `ObjectId`
raise uncaught; otherwise returns `deleted_count > 0`. -/
def delete_city (store : CityStore) (cityId : String) :
    Except Unit (Bool × CityStore) :=
  match parseObjectId cityId with
  | none => Except.error ()
  | some oid => Except.ok ((alistGet store oid).isSome, alistEraseAll store oid)

end CityRepository

namespace CitiesEndpoint

/-- `DELETE /api/cities/{city_id}`: 403 unless the requester carries a
truthy `is_admin` flag; then the repository delete runs with no
existence pre-check — an uncaught raise (malformed ObjectId) surfaces
as HTTP 500, a `False` result as 404, success as 204. -/
def delete_city (store : CityStore) (cityId : String) (isAdmin : Bool) :
    Except Nat Unit × CityStore :=
  if isAdmin then
    match CityRepository.delete_city store cityId with
    | Except.error _ => (Except.error 500, store)
    | Except.ok (true, store') => (Except.ok (), store')
    | Except.ok (false, store') => (Except.error 404, store')
  else (Except.error 403, store)

end CitiesEndpoint

/-! ### Blacklist service (`backend/services/blacklist_service.py`) -/

/-- The `BlacklistType` enum. -/
inductive BlacklistType where
  | hotel
  | city
  | activity
  | restaurant
deriving DecidableEq

/-- `.value` of the enum member. -/
def BlacklistType.val : BlacklistType → String
  | BlacklistType.hotel => "hotel"
  | BlacklistType.city => "city"
  | BlacklistType.activity => "activity"
  | BlacklistType.restaurant => "restaurant"

/-- A document of the `blacklist` / `admin_blacklist` collections. -/
structure BLEntry where
  user_id : String
  item_name : String
  item_type : String
  item_id : Option String
  reason : Option String
  created_at : Nat
  is_admin : Bool

/-- The blacklist service's world: the user and admin collections plus
an availability flag for Mongo (the service wraps every method in
`try/except` and reports failure on a store error). -/
structure BLWorld where
  coll : List BLEntry
  admin_coll : List BLEntry
  up : Bool

/-- `item_name.lower().strip()`. -/
def normalizeName (s : String) : String := stripStr (lowerStr s)

/-- The duplicate-check query of `add_to_blacklist`: same scope
(`user_id` or `"admin"`), same normalized name, same type value. -/
def blMatches (e : BLEntry) (scope name ty : String) : Bool :=
  e.user_id == scope && e.item_name == name && e.item_type == ty

namespace BlacklistService

/-- `BlacklistService.add_to_blacklist`: build the entry with the scope
(`"admin"` when `is_admin`) and the normalized name; `find_one` the
(scope, normalized name, type) triple in the chosen collection; when a
match exists return `False` ("already exists"); otherwise insert and
return `True`.  Any store error is caught and reported as `False`. -/
def add_to_blacklist (w : BLWorld) (userId itemName : String) (itemType : BlacklistType)
    (itemId reason : Option String) (isAdmin : Bool) (now : Nat) : Bool × BLWorld :=
  if w.up then
    let scope := if isAdmin then "admin" else userId
    let norm := normalizeName itemName
    let coll := if isAdmin then w.admin_coll else w.coll
    if coll.any (blMatches · scope norm itemType.val) then (false, w)
    else
      let e : BLEntry :=
        { user_id := scope, item_name := norm, item_type := itemType.val,
          item_id := itemId, reason := reason, created_at := now, is_admin := isAdmin }
      if isAdmin then (true, { w with admin_coll := w.admin_coll ++ [e] })
      else (true, { w with coll := w.coll ++ [e] })
  else (false, w)

/-- The number of records matching a (scope, normalized name, type)
triple in the collection the scope selects. -/
def countMatching (w : BLWorld) (isAdmin : Bool) (scope name ty : String) : Nat :=
  (if isAdmin then w.admin_coll else w.coll).countP (blMatches · scope name ty)

end BlacklistService

/-! ### Helper lemmas and result extractors -/

theorem cacheSetIfUp_store (w : ConvWorld) (cid : String) (s : StateMap) :
    (ConversationRepository.cacheSetIfUp w cid s).store = w.store := by
  unfold ConversationRepository.cacheSetIfUp
  split <;> rfl

theorem cacheSetIfUp_mongoUp (w : ConvWorld) (cid : String) (s : StateMap) :
    (ConversationRepository.cacheSetIfUp w cid s).mongoUp = w.mongoUp := by
  unfold ConversationRepository.cacheSetIfUp
  split <;> rfl

theorem cacheSetIfUp_redisUp (w : ConvWorld) (cid : String) (s : StateMap) :
    (ConversationRepository.cacheSetIfUp w cid s).redisUp = w.redisUp := by
  unfold ConversationRepository.cacheSetIfUp
  split <;> rfl

/-- The state an `append_message`-like call returned (`none` on raise). -/
def resultState (r : Except Unit (StateMap × ConvWorld)) : Option StateMap :=
  match r with
  | Except.ok (s, _) => some s
  | Except.error _ => none

/-- The world after an `append_message`-like call (`none` on raise). -/
def resultWorld (r : Except Unit (StateMap × ConvWorld)) : Option ConvWorld :=
  match r with
  | Except.ok (_, w) => some w
  | Except.error _ => none

/-- The `messages` field of the state a call returned. -/
def resultMessages (r : Except Unit (StateMap × ConvWorld)) : Option JVal :=
  match resultState r with
  | some s => alistGet s "messages"
  | none => none

/-- The state stored in Mongo under `cid` after a call. -/
def storedStateAfter (r : Except Unit (StateMap × ConvWorld)) (cid : String) :
    Option StateMap :=
  match resultWorld r with
  | some w => (alistGet w.store cid).map ConvDoc.state
  | none => none

/-- `append_message` twice in a row on the same conversation. -/
def appendTwice (w : ConvWorld) (cid : String) (m1 m2 : JVal) :
    Except Unit (StateMap × ConvWorld) :=
  match ConversationRepository.append_message w cid m1 with
  | Except.error e => Except.error e
  | Except.ok (_, w1) => ConversationRepository.append_message w1 cid m2

/-! ### Claim C1 -/

/-- Claim C1: `ConversationRepository.get` consults the cache first.  On
a cache hit it deserializes and returns the cached state with the world
untouched — the equation holds with no hypothesis on the store or on
Mongo's availability, so the document store is never consulted.  On a
genuine cache miss with the store reachable: a found document's state is
returned after being written into the cache with the 24-hour TTL, and an
absent document yields `none`. -/
theorem C1_get_read_through (w : ConvWorld) (cid : String)
    (hr : w.redisUp = true) :
    (∀ s ttl,
        alistGet w.cache (ConversationRepository.cacheKey cid) = some (CacheVal.good s, ttl) →
        ConversationRepository.get w cid = Except.ok (some s, w)) ∧
    (alistGet w.cache (ConversationRepository.cacheKey cid) = none → w.mongoUp = true →
      (∀ d, alistGet w.store cid = some d →
        ConversationRepository.get w cid = Except.ok (some d.state,
          { w with cache := alistSet w.cache (ConversationRepository.cacheKey cid)
                      (CacheVal.good d.state, CONV_CACHE_TTL_SECONDS) })) ∧
      (alistGet w.store cid = none →
        ConversationRepository.get w cid = Except.ok (none, w))) := by
  constructor
  · intro s ttl hc
    simp [ConversationRepository.get, hr, hc]
  · intro hc hm
    constructor
    · intro d hd
      simp [ConversationRepository.get, ConversationRepository.cacheSetIfUp, hr, hc, hm, hd]
    · intro hd
      simp [ConversationRepository.get, hr, hc, hm, hd]

/-- Concrete world with a cached conversation (store empty, Mongo down). -/
def c1HitWorld : ConvWorld :=
  { store := [],
    cache := [("conv:a", (CacheVal.good [("x", JVal.num 1)], 5))],
    mongoUp := false, redisUp := true }

/-- Concrete world with an empty cache and a stored conversation. -/
def c1FoundWorld : ConvWorld :=
  { store := [("a", { state := [("y", JVal.num 2)], userId := none })],
    cache := [], mongoUp := true, redisUp := true }

/-- Concrete world with an empty cache and an empty store. -/
def c1AbsentWorld : ConvWorld :=
  { store := [], cache := [], mongoUp := true, redisUp := true }

theorem C1_get_read_through_witness :
    ConversationRepository.get c1HitWorld "a" =
      Except.ok (some [("x", JVal.num 1)], c1HitWorld) ∧
    ConversationRepository.get c1FoundWorld "a" =
      Except.ok (some [("y", JVal.num 2)],
        { c1FoundWorld with
            cache := alistSet c1FoundWorld.cache (ConversationRepository.cacheKey "a")
                       (CacheVal.good [("y", JVal.num 2)], CONV_CACHE_TTL_SECONDS) }) ∧
    ConversationRepository.get c1AbsentWorld "a" = Except.ok (none, c1AbsentWorld) :=
  ⟨(C1_get_read_through c1HitWorld "a" rfl).1 [("x", JVal.num 1)] 5 rfl,
   ((C1_get_read_through c1FoundWorld "a" rfl).2 rfl rfl).1
     { state := [("y", JVal.num 2)], userId := none } rfl,
   ((C1_get_read_through c1AbsentWorld "a" rfl).2 rfl rfl).2 rfl⟩

/-! ### Claim C2 -/

/-- Claim C2: with the cache available, `upsert(k, s)` followed by
`get(k)` returns exactly `s` through the cache-hit path (the returned
world is the post-upsert world unchanged, so the hit bypassed the store
refresh).  The theorem holds for every `w.mongoUp`, in particular
`false`, i.e. when every document-store operation raises — `upsert`
still completes and the subsequent `get` is cache-only. -/
theorem C2_upsert_then_get (w : ConvWorld) (cid : String) (s : StateMap)
    (hr : w.redisUp = true) :
    ConversationRepository.get (ConversationRepository.upsert w cid s) cid =
      Except.ok (some s, ConversationRepository.upsert w cid s) := by
  by_cases hm : w.mongoUp <;>
    simp [ConversationRepository.upsert, ConversationRepository.cacheSetIfUp,
      ConversationRepository.get, hr, hm, alistGet_set_self]

/-- Concrete world whose document store is down (`mongoUp = false`). -/
def c2StoreDownWorld : ConvWorld :=
  { store := [], cache := [], mongoUp := false, redisUp := true }

theorem C2_upsert_then_get_witness :
    ConversationRepository.get
        (ConversationRepository.upsert c2StoreDownWorld "k" [("a", JVal.null)]) "k" =
      Except.ok (some [("a", JVal.null)],
        ConversationRepository.upsert c2StoreDownWorld "k" [("a", JVal.null)]) :=
  C2_upsert_then_get c2StoreDownWorld "k" [("a", JVal.null)] rfl

/-! ### Claim C3 -/

theorem tryPush_eq_some (store : List (String × ConvDoc)) (cid : String) (m : JVal)
    (d : ConvDoc) (ms : List JVal) (hs : alistGet store cid = some d)
    (hms : alistGet d.state "messages" = some (JVal.arr ms)) :
    ConversationRepository.tryPush store cid m =
      some ({ d with state := alistSet d.state "messages" (JVal.arr (ms ++ [m])) },
        alistSet store cid
          { d with state := alistSet d.state "messages" (JVal.arr (ms ++ [m])) }) := by
  simp [ConversationRepository.tryPush, hs, hms]

theorem tryPush_eq_none (store : List (String × ConvDoc)) (cid : String) (m : JVal)
    (h : ∀ d, alistGet store cid = some d →
         ∀ ms, alistGet d.state "messages" ≠ some (JVal.arr ms)) :
    ConversationRepository.tryPush store cid m = none := by
  unfold ConversationRepository.tryPush
  split
  · next d hs =>
      split
      · next d' ms hms => exact absurd hms (h d hs ms)
      · rfl
  · rfl

theorem append_message_eq_push (w : ConvWorld) (cid : String) (m : JVal)
    (d : ConvDoc) (ms : List JVal) (hm : w.mongoUp = true)
    (hs : alistGet w.store cid = some d)
    (hms : alistGet d.state "messages" = some (JVal.arr ms)) :
    ConversationRepository.append_message w cid m =
      Except.ok (alistSet d.state "messages" (JVal.arr (ms ++ [m])),
        ConversationRepository.cacheSetIfUp
          { w with store := (alistSet w.store cid
              { d with state := alistSet d.state "messages" (JVal.arr (ms ++ [m])) }) }
          cid (alistSet d.state "messages" (JVal.arr (ms ++ [m])))) := by
  simp [ConversationRepository.append_message, hm, tryPush_eq_some _ _ _ _ _ hs hms]

theorem append_message_eq_init (w : ConvWorld) (cid : String) (m : JVal)
    (hm : w.mongoUp = true)
    (htp : ConversationRepository.tryPush w.store cid m = none) :
    ConversationRepository.append_message w cid m =
      Except.ok ([("messages", JVal.arr [m])],
        ConversationRepository.cacheSetIfUp
          { w with store := (ConversationRepository.storeSetState w.store cid
              [("messages", JVal.arr [m])]) }
          cid [("messages", JVal.arr [m])]) := by
  simp [ConversationRepository.append_message, hm, htp]

theorem storeSetState_get_self (store : List (String × ConvDoc)) (cid : String)
    (s : StateMap) :
    ∃ u, alistGet (ConversationRepository.storeSetState store cid s) cid =
      some { state := s, userId := u } := by
  unfold ConversationRepository.storeSetState
  cases h0 : alistGet store cid with
  | some d => exact ⟨d.userId, alistGet_set_self store cid { d with state := s }⟩
  | none => exact ⟨none, alistGet_set_self store cid { state := s, userId := none }⟩

theorem appendTwice_messages_of_init (w : ConvWorld) (cid : String) (m1 m2 : JVal)
    (hm : w.mongoUp = true)
    (htp : ConversationRepository.tryPush w.store cid m1 = none) :
    resultMessages (appendTwice w cid m1 m2) = some (JVal.arr [m1, m2]) := by
  have h1 := append_message_eq_init w cid m1 hm htp
  set s1 : StateMap := [("messages", JVal.arr [m1])] with hs1
  set w1 := (ConversationRepository.cacheSetIfUp
      { w with store := ConversationRepository.storeSetState w.store cid s1 } cid s1) with hw1
  have hm1 : w1.mongoUp = true := by
    rw [hw1, cacheSetIfUp_mongoUp]; exact hm
  obtain ⟨u, hu⟩ := storeSetState_get_self w.store cid s1
  have hd1 : alistGet w1.store cid = some { state := s1, userId := u } := by
    rw [hw1, cacheSetIfUp_store]; exact hu
  have hmsgs : alistGet (ConvDoc.state { state := s1, userId := u }) "messages" =
      some (JVal.arr [m1]) := by
    simp [hs1, alistGet]
  have h2 := append_message_eq_push w1 cid m2 { state := s1, userId := u } [m1] hm1 hd1 hmsgs
  simp only [appendTwice, h1, h2, resultMessages, resultState]
  rw [alistGet_set_self]
  simp

theorem appendTwice_messages_of_push (w : ConvWorld) (cid : String) (m1 m2 : JVal)
    (d : ConvDoc) (hm : w.mongoUp = true) (hs : alistGet w.store cid = some d)
    (hms : alistGet d.state "messages" = some (JVal.arr [])) :
    resultMessages (appendTwice w cid m1 m2) = some (JVal.arr [m1, m2]) := by
  have h1 := append_message_eq_push w cid m1 d [] hm hs hms
  set d1 : ConvDoc := ({ d with state := alistSet d.state "messages" (JVal.arr ([] ++ [m1])) }) with hd1def
  set w1 := (ConversationRepository.cacheSetIfUp
      { w with store := alistSet w.store cid d1 } cid
      (alistSet d.state "messages" (JVal.arr ([] ++ [m1])))) with hw1
  have hm1 : w1.mongoUp = true := by
    rw [hw1, cacheSetIfUp_mongoUp]; exact hm
  have hd1 : alistGet w1.store cid = some d1 := by
    rw [hw1, cacheSetIfUp_store]
    exact alistGet_set_self w.store cid d1
  have hmsgs : alistGet d1.state "messages" = some (JVal.arr [m1]) := by
    rw [hd1def]
    simpa using alistGet_set_self d.state "messages" (JVal.arr ([] ++ [m1]))
  have h2 := append_message_eq_push w1 cid m2 d1 [m1] hm1 hd1 hmsgs
  simp only [appendTwice, h1, h2, resultMessages, resultState]
  rw [alistGet_set_self]
  simp

/-- World holding a conversation `"c"` that already has one message
`"m0"` in its state, with both backends up. -/
def c3World : ConvWorld :=
  { store := [("c", { state := [("messages", JVal.arr [JVal.str "m0"])], userId := none })],
    cache := [], mongoUp := true, redisUp := true }

/-- Claim C3 counterexample: on a pre-existing conversation whose state
already holds a message `"m0"`, `append_message` of `"m1"` then `"m2"`
yields the messages sequence `["m0", "m1", "m2"]`, not exactly
`["m1", "m2"]` as the claim states for every pre-existing conversation. -/
theorem C3_counterexample :
    ¬ (resultMessages (appendTwice c3World "c" (JVal.str "m1") (JVal.str "m2")) =
        some (JVal.arr [JVal.str "m1", JVal.str "m2"])) := by
  intro h
  have h0 : resultMessages (appendTwice c3World "c" (JVal.str "m1") (JVal.str "m2")) =
      some (JVal.arr [JVal.str "m0", JVal.str "m1", JVal.str "m2"]) := rfl
  rw [h0] at h
  simp at h

/-- Claim C3, amended: with the document store reachable, appending `m1`
then `m2` yields a state whose messages sequence is exactly `[m1, m2]`
provided no conversation with the key pre-existed, or the pre-existing
state's `messages` field is absent, non-array, or the empty array (a
pre-existing non-empty messages sequence is instead extended, see the
counterexample). -/
theorem C3_append_two_messages (w : ConvWorld) (cid : String) (m1 m2 : JVal)
    (hm : w.mongoUp = true)
    (hpre : ∀ d, alistGet w.store cid = some d →
            ∀ ms, alistGet d.state "messages" = some (JVal.arr ms) → ms = []) :
    resultMessages (appendTwice w cid m1 m2) = some (JVal.arr [m1, m2]) := by
  cases hs : alistGet w.store cid with
  | none =>
      refine appendTwice_messages_of_init w cid m1 m2 hm (tryPush_eq_none _ _ _ ?_)
      intro d hd ms hms
      rw [hs] at hd
      cases hd
  | some d =>
      cases hmv : alistGet d.state "messages" with
      | none =>
          refine appendTwice_messages_of_init w cid m1 m2 hm (tryPush_eq_none _ _ _ ?_)
          intro d' hd' ms hms'
          rw [hs] at hd'
          injection hd' with hdd
          subst hdd
          rw [hmv] at hms'
          cases hms'
      | some v =>
          cases v with
          | arr ms =>
              have hms0 : ms = [] := hpre d hs ms hmv
              subst hms0
              exact appendTwice_messages_of_push w cid m1 m2 d hm hs hmv
          | null =>
              refine appendTwice_messages_of_init w cid m1 m2 hm (tryPush_eq_none _ _ _ ?_)
              intro d' hd' ms hms'
              rw [hs] at hd'
              injection hd' with hdd
              subst hdd
              rw [hmv] at hms'
              simp at hms'
          | bool b =>
              refine appendTwice_messages_of_init w cid m1 m2 hm (tryPush_eq_none _ _ _ ?_)
              intro d' hd' ms hms'
              rw [hs] at hd'
              injection hd' with hdd
              subst hdd
              rw [hmv] at hms'
              simp at hms'
          | num n =>
              refine appendTwice_messages_of_init w cid m1 m2 hm (tryPush_eq_none _ _ _ ?_)
              intro d' hd' ms hms'
              rw [hs] at hd'
              injection hd' with hdd
              subst hdd
              rw [hmv] at hms'
              simp at hms'
          | str t =>
              refine appendTwice_messages_of_init w cid m1 m2 hm (tryPush_eq_none _ _ _ ?_)
              intro d' hd' ms hms'
              rw [hs] at hd'
              injection hd' with hdd
              subst hdd
              rw [hmv] at hms'
              simp at hms'
          | obj fs =>
              refine appendTwice_messages_of_init w cid m1 m2 hm (tryPush_eq_none _ _ _ ?_)
              intro d' hd' ms hms'
              rw [hs] at hd'
              injection hd' with hdd
              subst hdd
              rw [hmv] at hms'
              simp at hms'

/-- World with no conversations at all, both backends up. -/
def c3FreshWorld : ConvWorld :=
  { store := [], cache := [], mongoUp := true, redisUp := true }

theorem C3_append_two_messages_witness :
    resultMessages (appendTwice c3FreshWorld "c" (JVal.str "m1") (JVal.str "m2")) =
      some (JVal.arr [JVal.str "m1", JVal.str "m2"]) :=
  C3_append_two_messages c3FreshWorld "c" (JVal.str "m1") (JVal.str "m2") rfl
    (by intro d hd ms hms; simp [c3FreshWorld, alistGet] at hd)

/-! ### Claim C8 -/

/-- Claim C8: when a conversation document exists whose state has no
array-valued `messages` field, `append_message` replaces the entire
stored state with `{"messages": [m]}` — the returned state and the state
now stored under the key are exactly that singleton object, all other
state keys discarded. -/
theorem C8_append_replaces_nonarray_state (w : ConvWorld) (cid : String) (m : JVal)
    (d : ConvDoc) (hm : w.mongoUp = true)
    (hs : alistGet w.store cid = some d)
    (hms : ∀ ms, alistGet d.state "messages" ≠ some (JVal.arr ms)) :
    resultState (ConversationRepository.append_message w cid m) =
      some [("messages", JVal.arr [m])] ∧
    storedStateAfter (ConversationRepository.append_message w cid m) cid =
      some [("messages", JVal.arr [m])] := by
  have htp : ConversationRepository.tryPush w.store cid m = none := by
    refine tryPush_eq_none _ _ _ ?_
    intro d' hd' ms hms'
    rw [hs] at hd'
    injection hd' with hdd
    subst hdd
    exact hms ms hms'
  have h1 := append_message_eq_init w cid m hm htp
  constructor
  · rw [h1]; rfl
  · simp only [storedStateAfter, resultWorld, h1, cacheSetIfUp_store]
    unfold ConversationRepository.storeSetState
    rw [hs, alistGet_set_self]
    rfl

/-- World holding a conversation `"c"` whose state has only auxiliary
keys (`context`, `trip_plan`) and no `messages` field. -/
def c8World : ConvWorld :=
  { store := [("c", { state := [("context", JVal.obj []), ("trip_plan", JVal.null)],
                      userId := none })],
    cache := [], mongoUp := true, redisUp := true }

theorem C8_append_replaces_nonarray_state_witness :
    resultState (ConversationRepository.append_message c8World "c" (JVal.str "hi")) =
      some [("messages", JVal.arr [JVal.str "hi"])] ∧
    storedStateAfter (ConversationRepository.append_message c8World "c" (JVal.str "hi")) "c" =
      some [("messages", JVal.arr [JVal.str "hi"])] :=
  C8_append_replaces_nonarray_state c8World "c" (JVal.str "hi")
    { state := [("context", JVal.obj []), ("trip_plan", JVal.null)], userId := none }
    rfl rfl
    (by
      intro ms h
      rw [show alistGet ([("context", JVal.obj []), ("trip_plan", JVal.null)] : StateMap)
            "messages" = none from rfl] at h
      cases h)

/-! ### Claim C9 -/

/-- Claim C9: when every document-store operation raises, the
conversation repository's `delete` still removes the cached entry and
returns `True`, for every world — in particular regardless of whether a
document with the key exists in the (unreachable) store. -/
theorem C9_delete_store_down (w : ConvWorld) (cid : String)
    (hm : w.mongoUp = false) (hr : w.redisUp = true) :
    (ConversationRepository.delete w cid).1 = true ∧
    alistGet (ConversationRepository.delete w cid).2.cache
      (ConversationRepository.cacheKey cid) = none := by
  constructor
  · simp [ConversationRepository.delete, hm]
  · simp [ConversationRepository.delete, ConversationRepository.cacheDelIfUp, hm, hr,
      alistGet_eraseAll_self]

/-- World with Mongo down, Redis up, an empty store and a cached entry
for conversation `"c"`. -/
def c9World : ConvWorld :=
  { store := [],
    cache := [("conv:c", (CacheVal.good [("k", JVal.num 7)], 10))],
    mongoUp := false, redisUp := true }

theorem C9_delete_store_down_witness :
    (ConversationRepository.delete c9World "c").1 = true ∧
    alistGet (ConversationRepository.delete c9World "c").2.cache
      (ConversationRepository.cacheKey "c") = none :=
  C9_delete_store_down c9World "c" rfl rfl

/-! ### Claim C6 -/

/-- World with Mongo unreachable and nothing stored at all. -/
def c6DownWorld : ConvWorld :=
  { store := [], cache := [], mongoUp := false, redisUp := true }

/-- Claim C6 counterexample, two failing inputs.  First: no document
with key `"missing"` exists, yet with the document store unreachable the
conversation repository's `delete` returns `True` (the code's "consider
deleted in cache-only mode" branch), contradicting "returns False
whenever no document with that key exists, under all store conditions".
Second: an admin's DELETE of a city whose identifier is the malformed
string `"zz"` — an identifier certainly not present in the store — does
not yield not-found: `ObjectId` raises uncaught inside `delete_city`
and the request surfaces as HTTP 500. -/
theorem C6_counterexample :
    (alistGet c6DownWorld.store "missing" = none ∧
      (ConversationRepository.delete c6DownWorld "missing").1 = true) ∧
    (parseObjectId "zz" = none ∧
      (CitiesEndpoint.delete_city ([] : CityStore) "zz" true).1 = Except.error 500) :=
  ⟨⟨rfl, rfl⟩, ⟨rfl, rfl⟩⟩

/-- Claim C6, amended: deleting a non-existent identifier yields
not-found, never success, provided the document store is reachable and
— for cities — the identifier is a well-formed ObjectId.  Concretely:
the conversation repository's `delete` returns `False` when no document
with the key exists and the store is up, the conversations endpoint
maps that to HTTP 404; the trips endpoint returns HTTP 404 whenever
`get_trip_by_id` finds nothing (including malformed identifiers, which
its bare `except` maps to not-found); the city repository's
`delete_city` returns `False` and the cities endpoint HTTP 404 for an
admin's delete of a well-formed identifier with no stored city.  (When
the store is unreachable the conversation `delete` instead reports
`True`, and a malformed city identifier raises uncaught and surfaces as
HTTP 500 — see the counterexample.) -/
theorem C6_delete_missing_not_found (w : ConvWorld) (cid : String)
    (store : TripStore) (tid userId : String)
    (cityStore : CityStore) (cityId coid : String)
    (hm : w.mongoUp = true) (habs : alistGet w.store cid = none)
    (htrip : TripRepository.get_trip_by_id store tid = none)
    (hcoid : parseObjectId cityId = some coid)
    (hcabs : alistGet cityStore coid = none) :
    (ConversationRepository.delete w cid).1 = false ∧
    (ConversationsEndpoint.delete_conversation w cid).1 = Except.error 404 ∧
    TripsEndpoint.delete_trip store tid userId = (Except.error 404, store) ∧
    CityRepository.delete_city cityStore cityId =
      Except.ok (false, alistEraseAll cityStore coid) ∧
    (CitiesEndpoint.delete_city cityStore cityId true).1 = Except.error 404 := by
  have h1 : (ConversationRepository.delete w cid).1 = false := by
    simp [ConversationRepository.delete, hm, habs]
  have hcity : CityRepository.delete_city cityStore cityId =
      Except.ok (false, alistEraseAll cityStore coid) := by
    simp [CityRepository.delete_city, hcoid, hcabs]
  refine ⟨h1, ?_, ?_, hcity, ?_⟩
  · simp [ConversationsEndpoint.delete_conversation, h1]
  · simp [TripsEndpoint.delete_trip, htrip]
  · simp [CitiesEndpoint.delete_city, hcity]

/-- World with a stored conversation `"other"` and both backends up. -/
def c6UpWorld : ConvWorld :=
  { store := [("other", { state := [], userId := none })],
    cache := [], mongoUp := true, redisUp := true }

theorem C6_delete_missing_not_found_witness :
    (ConversationRepository.delete c6UpWorld "missing").1 = false ∧
    (ConversationsEndpoint.delete_conversation c6UpWorld "missing").1 = Except.error 404 ∧
    TripsEndpoint.delete_trip ([] : TripStore) "0123456789abcdef01234567" "u1" =
      (Except.error 404, ([] : TripStore)) ∧
    CityRepository.delete_city ([] : CityStore) "0123456789abcdef01234567" =
      Except.ok (false, alistEraseAll ([] : CityStore) "0123456789abcdef01234567") ∧
    (CitiesEndpoint.delete_city ([] : CityStore) "0123456789abcdef01234567" true).1 =
      Except.error 404 :=
  C6_delete_missing_not_found c6UpWorld "missing" [] "0123456789abcdef01234567" "u1"
    [] "0123456789abcdef01234567" "0123456789abcdef01234567"
    rfl rfl rfl (by rfl) rfl

/-! ### Claim C4 -/

/-- Claim C4: for every stored trip and requester who is not the owner
(the trip's `user_id` does not equal the requester's identity), the
update (PUT) and delete endpoints return HTTP 403 and leave the store
unchanged, while the read (GET) endpoint succeeds and returns the trip
whenever it carries a truthy `is_public` flag. -/
theorem C4_non_owner_forbidden (store : TripStore) (tid userId : String)
    (trip : Doc) (owner : JVal)
    (htrip : TripRepository.get_trip_by_id store tid = some trip)
    (howner : alistGet trip "user_id" = some owner)
    (hno : jvalIsStr owner userId = false) :
    (∀ payload now,
      TripsEndpoint.update_trip store tid userId payload now = (Except.error 403, store)) ∧
    TripsEndpoint.delete_trip store tid userId = (Except.error 403, store) ∧
    (TripsEndpoint.isPublicFlag trip = true →
      TripsEndpoint.get_trip store tid userId = Except.ok trip) := by
  refine ⟨?_, ?_, ?_⟩
  · intro payload now
    simp [TripsEndpoint.update_trip, htrip, howner, hno]
  · simp [TripsEndpoint.delete_trip, htrip, howner, hno]
  · intro hpub
    simp [TripsEndpoint.get_trip, htrip, howner, hno, hpub]

/-- A valid 24-hex ObjectId string used by the concrete trip worlds. -/
def oid4 : String := "0123456789abcdef01234567"

/-- A public trip owned by `"owner1"`. -/
def trip4 : Doc := [("user_id", JVal.str "owner1"), ("is_public", JVal.bool true)]

/-- A store holding just `trip4` under `oid4`. -/
def store4 : TripStore := [(oid4, trip4)]

theorem C4_non_owner_forbidden_witness :
    TripsEndpoint.update_trip store4 oid4 "intruder" [("name", JVal.str "x")] (JVal.str "t1") =
      (Except.error 403, store4) ∧
    TripsEndpoint.delete_trip store4 oid4 "intruder" = (Except.error 403, store4) ∧
    TripsEndpoint.get_trip store4 oid4 "intruder" =
      Except.ok (alistSet trip4 "id" (JVal.str oid4)) :=
  ⟨(C4_non_owner_forbidden store4 oid4 "intruder" (alistSet trip4 "id" (JVal.str oid4))
      (JVal.str "owner1") (by rfl) (by rfl) (by rfl)).1 [("name", JVal.str "x")] (JVal.str "t1"),
   (C4_non_owner_forbidden store4 oid4 "intruder" (alistSet trip4 "id" (JVal.str oid4))
      (JVal.str "owner1") (by rfl) (by rfl) (by rfl)).2.1,
   (C4_non_owner_forbidden store4 oid4 "intruder" (alistSet trip4 "id" (JVal.str oid4))
      (JVal.str "owner1") (by rfl) (by rfl) (by rfl)).2.2 (by rfl)⟩

/-! ### Claim C10 -/

/-- Claim C10: `get_trip_by_id` never raises — its body is wrapped in a
bare `except` returning `None`, so it is total with an `Option` result.
A malformed identifier (not 24-hex, so `ObjectId` raises) surfaces as
`none` (not-found); a well-formed identifier returns the stored document
with its `id` field set to the string form of the identifier, or `none`
when absent. -/
theorem C10_get_trip_by_id_total (store : TripStore) (tripId : String) :
    (parseObjectId tripId = none → TripRepository.get_trip_by_id store tripId = none) ∧
    (∀ oid doc, parseObjectId tripId = some oid → alistGet store oid = some doc →
      TripRepository.get_trip_by_id store tripId = some (alistSet doc "id" (JVal.str oid))) ∧
    (∀ oid, parseObjectId tripId = some oid → alistGet store oid = none →
      TripRepository.get_trip_by_id store tripId = none) := by
  refine ⟨?_, ?_, ?_⟩
  · intro hp
    simp [TripRepository.get_trip_by_id, TripRepository.get_trip_by_id_attempt, hp]
  · intro oid doc hp hg
    simp [TripRepository.get_trip_by_id, TripRepository.get_trip_by_id_attempt, hp, hg]
  · intro oid hp hg
    simp [TripRepository.get_trip_by_id, TripRepository.get_trip_by_id_attempt, hp, hg]

theorem C10_get_trip_by_id_total_witness :
    TripRepository.get_trip_by_id store4 "not-a-valid-objectid!!" = none ∧
    TripRepository.get_trip_by_id store4 oid4 = some (alistSet trip4 "id" (JVal.str oid4)) ∧
    TripRepository.get_trip_by_id ([] : TripStore) oid4 = none :=
  ⟨(C10_get_trip_by_id_total store4 "not-a-valid-objectid!!").1 (by rfl),
   (C10_get_trip_by_id_total store4 oid4).2.1 oid4 trip4 (by rfl) (by rfl),
   (C10_get_trip_by_id_total [] oid4).2.2 oid4 (by rfl) (by rfl)⟩

/-! ### Claim C7 -/

theorem listModify_getElem_ne {α : Type} (f : α → α) (l : List α) :
    ∀ (i j : Nat), j ≠ i → (TripRepository.listModify f i l)[j]? = l[j]? := by
  induction l with
  | nil => intro i j _; cases i <;> rfl
  | cons x t ih =>
      intro i j h
      cases i with
      | zero =>
          cases j with
          | zero => exact absurd rfl h
          | succ k => simp [TripRepository.listModify]
      | succ n =>
          cases j with
          | zero => simp [TripRepository.listModify]
          | succ k =>
              simp only [TripRepository.listModify, List.getElem?_cons_succ]
              exact ih n k (by omega)

theorem listModify_getElem_self {α : Type} (f : α → α) (l : List α) :
    ∀ (i : Nat) (x : α), l[i]? = some x →
      (TripRepository.listModify f i l)[i]? = some (f x) := by
  induction l with
  | nil => intro i x h; simp at h
  | cons y t ih =>
      intro i x h
      cases i with
      | zero =>
          simp only [List.getElem?_cons_zero, Option.some.injEq] at h
          subst h
          simp [TripRepository.listModify]
      | succ n =>
          simp only [List.getElem?_cons_succ] at h
          simp only [TripRepository.listModify, List.getElem?_cons_succ]
          exact ih n x h

theorem notMem_keys_sanitize (upd : Doc) (now : JVal) (f : String)
    (hf : f ∉ upd.map Prod.fst) (hfu : f ≠ "updated_at") :
    f ∉ (TripRepository.sanitizeTripUpdate upd now).map Prod.fst := by
  unfold TripRepository.sanitizeTripUpdate
  exact notMem_keys_eraseAll _ _ _
    (notMem_keys_eraseAll _ _ _ (notMem_keys_alistSet _ _ _ _ hfu hf))

/-- The trip document produced by `update_budget_item`'s `$set`: the
matched budget element replaced and `updated_at` refreshed. -/
def budgetUpdatedTrip (trip : Doc) (upd : Doc) (now : JVal) (items : List JVal)
    (i : Nat) : Doc :=
  alistSet (alistSet trip "budget"
    (JVal.arr (TripRepository.listModify (TripRepository.mergeBudgetItem upd) i items)))
    "updated_at" now

/-- Claim C7: partial updates replace only the supplied fields.  For
`update_trip`: the store call applies exactly the sanitized `$set`
document, and every field not supplied and different from `updated_at`
keeps its prior value.  For `update_budget_item`: the stored document
changes only at `budget` and `updated_at`; within the budget array only
the matched element changes; and within that element every field not
supplied keeps its prior value. -/
theorem C7_partial_update_frame (store : TripStore) (tripId oid : String)
    (upd : Doc) (now : JVal) (trip : Doc)
    (hp : parseObjectId tripId = some oid)
    (hg : alistGet store oid = some trip) :
    (TripRepository.update_trip store tripId upd now =
        Except.ok (some (alistSet (mergeSet trip (TripRepository.sanitizeTripUpdate upd now))
            "id" (JVal.str oid)),
          alistSet store oid (mergeSet trip (TripRepository.sanitizeTripUpdate upd now))) ∧
      ∀ f, f ∉ upd.map Prod.fst → f ≠ "updated_at" →
        alistGet (mergeSet trip (TripRepository.sanitizeTripUpdate upd now)) f =
          alistGet trip f) ∧
    (∀ itemId items i,
      alistGet trip "budget" = some (JVal.arr items) →
      items.findIdx? (TripRepository.budgetItemHasId · itemId) = some i →
      (TripRepository.update_budget_item store tripId itemId upd now =
          Except.ok (TripRepository.get_trip_by_id
              (alistSet store oid (budgetUpdatedTrip trip upd now items i)) tripId,
            alistSet store oid (budgetUpdatedTrip trip upd now items i)) ∧
        (∀ f, f ≠ "budget" → f ≠ "updated_at" →
          alistGet (budgetUpdatedTrip trip upd now items i) f = alistGet trip f) ∧
        (∀ j, j ≠ i →
          (TripRepository.listModify (TripRepository.mergeBudgetItem upd) i items)[j]? =
            items[j]?) ∧
        (∀ fs, items[i]? = some (JVal.obj fs) →
          (TripRepository.listModify (TripRepository.mergeBudgetItem upd) i items)[i]? =
            some (JVal.obj (mergeSet fs upd)) ∧
          ∀ f, f ∉ upd.map Prod.fst →
            alistGet (mergeSet fs upd) f = alistGet fs f))) := by
  refine ⟨⟨?_, ?_⟩, ?_⟩
  · simp [TripRepository.update_trip, hp, hg]
  · intro f hf hfu
    exact alistGet_mergeSet_notMem _ _ _ (notMem_keys_sanitize upd now f hf hfu)
  · intro itemId items i hb hidx
    refine ⟨?_, ?_, ?_, ?_⟩
    · simp [TripRepository.update_budget_item, hp, hg, hb, hidx, budgetUpdatedTrip]
    · intro f hfb hfu
      unfold budgetUpdatedTrip
      rw [alistGet_set_ne _ _ _ _ hfu, alistGet_set_ne _ _ _ _ hfb]
    · intro j hj
      exact listModify_getElem_ne _ _ i j hj
    · intro fs hfs
      constructor
      · rw [listModify_getElem_self _ _ i _ hfs]
        rfl
      · intro f hf
        exact alistGet_mergeSet_notMem _ _ _ hf

/-- A second valid ObjectId used by the update-frame witness. -/
def oid7 : String := "a1b2c3d4e5f6a7b8c9d0e1f2"

/-- A trip with a name, one budget item, and a creation stamp. -/
def trip7 : Doc :=
  [("user_id", JVal.str "u1"), ("name", JVal.str "Euro Trip"),
   ("budget", JVal.arr [JVal.obj [("id", JVal.str "b1"), ("amount", JVal.num 5)]]),
   ("created_at", JVal.str "t0")]

/-- A store holding just `trip7` under `oid7`. -/
def store7 : TripStore := [(oid7, trip7)]

/-- A partial update supplying only the `name` field. -/
def upd7 : Doc := [("name", JVal.str "New Name")]

theorem C7_partial_update_frame_witness :
    alistGet (mergeSet trip7 (TripRepository.sanitizeTripUpdate upd7 (JVal.str "t1")))
        "created_at" = alistGet trip7 "created_at" ∧
    alistGet (mergeSet [("id", JVal.str "b1"), ("amount", JVal.num 5)] upd7) "amount" =
      alistGet [("id", JVal.str "b1"), ("amount", JVal.num 5)] "amount" :=
  ⟨(C7_partial_update_frame store7 oid7 oid7 upd7 (JVal.str "t1") trip7
      (by rfl) (by rfl)).1.2 "created_at" (by decide) (by decide),
   (((C7_partial_update_frame store7 oid7 oid7 upd7 (JVal.str "t1") trip7
      (by rfl) (by rfl)).2 "b1"
        [JVal.obj [("id", JVal.str "b1"), ("amount", JVal.num 5)]] 0
        (by rfl) (by rfl)).2.2.2
      [("id", JVal.str "b1"), ("amount", JVal.num 5)] (by rfl)).2 "amount" (by decide)⟩

/-! ### Claim C5 -/

theorem countP_pos_of_any {α : Type} (l : List α) (p : α → Bool)
    (h : l.any p = true) : 1 ≤ l.countP p := by
  induction l with
  | nil => simp at h
  | cons x t ih =>
      simp only [List.any_cons, Bool.or_eq_true] at h
      rcases h with h | h
      · simp [List.countP_cons, h]
      · have := ih h
        simp only [List.countP_cons]
        omega

theorem countP_eq_zero_of_any_false {α : Type} (l : List α) (p : α → Bool)
    (h : l.any p = false) : l.countP p = 0 := by
  induction l with
  | nil => simp
  | cons x t ih =>
      simp only [List.any_cons, Bool.or_eq_false_iff] at h
      simp [List.countP_cons, h.1, ih h.2]

/-- Claim C5: adding the same (scope, normalized name, type) combination
twice returns the already-exists outcome (`False`) on the second call,
and — provided the collection satisfies the uniqueness invariant (at most
one matching record) beforehand — leaves exactly one matching record, so
the invariant is preserved.  Holds for both the user scope and the admin
scope. -/
theorem C5_blacklist_unique (w : BLWorld) (userId itemName : String) (ty : BlacklistType)
    (iid1 r1 iid2 r2 : Option String) (isAdmin : Bool) (n1 n2 : Nat)
    (hup : w.up = true)
    (hinv : BlacklistService.countMatching w isAdmin (if isAdmin then "admin" else userId)
        (normalizeName itemName) ty.val ≤ 1) :
    (BlacklistService.add_to_blacklist
        (BlacklistService.add_to_blacklist w userId itemName ty iid1 r1 isAdmin n1).2
        userId itemName ty iid2 r2 isAdmin n2).1 = false ∧
    BlacklistService.countMatching
      (BlacklistService.add_to_blacklist
        (BlacklistService.add_to_blacklist w userId itemName ty iid1 r1 isAdmin n1).2
        userId itemName ty iid2 r2 isAdmin n2).2
      isAdmin (if isAdmin then "admin" else userId) (normalizeName itemName) ty.val = 1 := by
  cases isAdmin with
  | false =>
      cases hany : w.coll.any
          (blMatches · userId (normalizeName itemName) ty.val) with
      | true =>
          have h1 : BlacklistService.add_to_blacklist w userId itemName ty iid1 r1 false n1 =
              (false, w) := by
            simp [BlacklistService.add_to_blacklist, hup, hany]
          have h2 : BlacklistService.add_to_blacklist w userId itemName ty iid2 r2 false n2 =
              (false, w) := by
            simp [BlacklistService.add_to_blacklist, hup, hany]
          have hfinal : BlacklistService.add_to_blacklist
              (BlacklistService.add_to_blacklist w userId itemName ty iid1 r1 false n1).2
              userId itemName ty iid2 r2 false n2 = (false, w) := by
            rw [h1]; exact h2
          rw [hfinal]
          refine ⟨rfl, ?_⟩
          have hpos := countP_pos_of_any w.coll _ hany
          have hle : w.coll.countP
              (blMatches · userId (normalizeName itemName) ty.val) ≤ 1 := hinv
          show w.coll.countP (blMatches · userId (normalizeName itemName) ty.val) = 1
          omega
      | false =>
          have h1 : BlacklistService.add_to_blacklist w userId itemName ty iid1 r1 false n1 =
              (true, { w with coll := w.coll ++
                [{ user_id := userId, item_name := normalizeName itemName,
                   item_type := ty.val, item_id := iid1, reason := r1,
                   created_at := n1, is_admin := false }] }) := by
            simp [BlacklistService.add_to_blacklist, hup, hany]
          have hany2 : (w.coll ++
              [{ user_id := userId, item_name := normalizeName itemName,
                 item_type := ty.val, item_id := iid1, reason := r1,
                 created_at := n1, is_admin := false }] : List BLEntry).any
              (blMatches · userId (normalizeName itemName) ty.val) = true := by
            simp [List.any_append, blMatches]
          have h2 : BlacklistService.add_to_blacklist
              ({ w with coll := w.coll ++
                [{ user_id := userId, item_name := normalizeName itemName,
                   item_type := ty.val, item_id := iid1, reason := r1,
                   created_at := n1, is_admin := false }] } : BLWorld)
              userId itemName ty iid2 r2 false n2 =
              (false, { w with coll := w.coll ++
                [{ user_id := userId, item_name := normalizeName itemName,
                   item_type := ty.val, item_id := iid1, reason := r1,
                   created_at := n1, is_admin := false }] }) := by
            simp [BlacklistService.add_to_blacklist, hup, hany2]
          have hfinal : BlacklistService.add_to_blacklist
              (BlacklistService.add_to_blacklist w userId itemName ty iid1 r1 false n1).2
              userId itemName ty iid2 r2 false n2 =
              (false, { w with coll := w.coll ++
                [{ user_id := userId, item_name := normalizeName itemName,
                   item_type := ty.val, item_id := iid1, reason := r1,
                   created_at := n1, is_admin := false }] }) := by
            rw [h1]; exact h2
          rw [hfinal]
          refine ⟨rfl, ?_⟩
          show (w.coll ++
              [{ user_id := userId, item_name := normalizeName itemName,
                 item_type := ty.val, item_id := iid1, reason := r1,
                 created_at := n1, is_admin := false }] : List BLEntry).countP
              (blMatches · userId (normalizeName itemName) ty.val) = 1
          rw [List.countP_append, countP_eq_zero_of_any_false w.coll _ hany]
          simp [List.countP_cons, blMatches]
  | true =>
      cases hany : w.admin_coll.any
          (blMatches · "admin" (normalizeName itemName) ty.val) with
      | true =>
          have h1 : BlacklistService.add_to_blacklist w userId itemName ty iid1 r1 true n1 =
              (false, w) := by
            simp [BlacklistService.add_to_blacklist, hup, hany]
          have h2 : BlacklistService.add_to_blacklist w userId itemName ty iid2 r2 true n2 =
              (false, w) := by
            simp [BlacklistService.add_to_blacklist, hup, hany]
          have hfinal : BlacklistService.add_to_blacklist
              (BlacklistService.add_to_blacklist w userId itemName ty iid1 r1 true n1).2
              userId itemName ty iid2 r2 true n2 = (false, w) := by
            rw [h1]; exact h2
          rw [hfinal]
          refine ⟨rfl, ?_⟩
          have hpos := countP_pos_of_any w.admin_coll _ hany
          have hle : w.admin_coll.countP
              (blMatches · "admin" (normalizeName itemName) ty.val) ≤ 1 := hinv
          show w.admin_coll.countP (blMatches · "admin" (normalizeName itemName) ty.val) = 1
          omega
      | false =>
          have h1 : BlacklistService.add_to_blacklist w userId itemName ty iid1 r1 true n1 =
              (true, { w with admin_coll := w.admin_coll ++
                [{ user_id := "admin", item_name := normalizeName itemName,
                   item_type := ty.val, item_id := iid1, reason := r1,
                   created_at := n1, is_admin := true }] }) := by
            simp [BlacklistService.add_to_blacklist, hup, hany]
          have hany2 : (w.admin_coll ++
              [{ user_id := "admin", item_name := normalizeName itemName,
                 item_type := ty.val, item_id := iid1, reason := r1,
                 created_at := n1, is_admin := true }] : List BLEntry).any
              (blMatches · "admin" (normalizeName itemName) ty.val) = true := by
            simp [List.any_append, blMatches]
          have h2 : BlacklistService.add_to_blacklist
              ({ w with admin_coll := w.admin_coll ++
                [{ user_id := "admin", item_name := normalizeName itemName,
                   item_type := ty.val, item_id := iid1, reason := r1,
                   created_at := n1, is_admin := true }] } : BLWorld)
              userId itemName ty iid2 r2 true n2 =
              (false, { w with admin_coll := w.admin_coll ++
                [{ user_id := "admin", item_name := normalizeName itemName,
                   item_type := ty.val, item_id := iid1, reason := r1,
                   created_at := n1, is_admin := true }] }) := by
            simp [BlacklistService.add_to_blacklist, hup, hany2]
          have hfinal : BlacklistService.add_to_blacklist
              (BlacklistService.add_to_blacklist w userId itemName ty iid1 r1 true n1).2
              userId itemName ty iid2 r2 true n2 =
              (false, { w with admin_coll := w.admin_coll ++
                [{ user_id := "admin", item_name := normalizeName itemName,
                   item_type := ty.val, item_id := iid1, reason := r1,
                   created_at := n1, is_admin := true }] }) := by
            rw [h1]; exact h2
          rw [hfinal]
          refine ⟨rfl, ?_⟩
          show (w.admin_coll ++
              [{ user_id := "admin", item_name := normalizeName itemName,
                 item_type := ty.val, item_id := iid1, reason := r1,
                 created_at := n1, is_admin := true }] : List BLEntry).countP
              (blMatches · "admin" (normalizeName itemName) ty.val) = 1
          rw [List.countP_append, countP_eq_zero_of_any_false w.admin_coll _ hany]
          simp [List.countP_cons, blMatches]

/-- Empty blacklist world with the store reachable. -/
def w5 : BLWorld := { coll := [], admin_coll := [], up := true }

theorem C5_blacklist_unique_witness :
    (BlacklistService.add_to_blacklist
        (BlacklistService.add_to_blacklist w5 "u1" " Hotel X " BlacklistType.hotel
          none none false 1).2
        "u1" " Hotel X " BlacklistType.hotel none none false 2).1 = false ∧
    BlacklistService.countMatching
      (BlacklistService.add_to_blacklist
        (BlacklistService.add_to_blacklist w5 "u1" " Hotel X " BlacklistType.hotel
          none none false 1).2
        "u1" " Hotel X " BlacklistType.hotel none none false 2).2
      false (if false then "admin" else "u1") (normalizeName " Hotel X ")
      BlacklistType.hotel.val = 1 :=
  C5_blacklist_unique w5 "u1" " Hotel X " BlacklistType.hotel none none none none
    false 1 2 rfl (by decide)

end GlobeTrotter
